import Mathlib

/-!
# Verification of the quack-quack-go timing & judgment engine

Shallow embedding of the rhythm-game engine:

* `src/scripts/bms-timing-engine.js` — grid chart conversion (`processLane`,
  `convertToGameFormat`, `validatePattern`, `createTestChart`);
* `src/scripts/beat-chart-generator.js` — procedural chart generation
  (`generateChart`, section structure and pattern tables);
* `src/scripts/chart-loader.js` — `GameStateManager.updateScore` and
  `calculateGrade`;
* `src/unnamed/part_000` — the hold-note-aware `GameEngine`
  (`handleInput`, `handleKeyPress`, `handleKeyRelease`, `updateHoldNotes`,
  `completeHoldNote`, `findHittableNote`, `calculateJudgment`,
  `calculateScore`, `pauseGame`, `stopGame`, `update`).

JavaScript `Number` is modelled by `ℚ`.  Every concrete input used below
(millisecond times on a 100 ms grid, pixel positions, `60/120 = 0.5`, …) is
exactly representable in binary floating point and all the operations applied
to it are exact there, so the rational model agrees with the JS semantics on
these inputs.  `Math.floor` is `Rat.floor`.  Scores are integers (`ℤ`).
Object references held by the `activeHoldNotes` `Map` are modelled by numeric
note ids resolved against the engine's note list.
-/

/-- The two input lanes (`'top'` / `'bottom'` strings in the source). -/
inductive Lane where
  | top
  | bottom
deriving DecidableEq, Repr

/-- Judgment outcomes; `hold` is the judgment string passed by
`updateHoldNotes` for progressive hold awards. -/
inductive Judgment where
  | perfect
  | great
  | good
  | miss
  | hold
deriving DecidableEq, Repr

/-! ## BMS timing engine (`src/scripts/bms-timing-engine.js`) -/

/-- The timing metadata read by the `BMSTimingEngine` constructor from
`chartData.metadata`. -/
structure BMSConfig where
  bpm : ℚ
  subdivision : ℕ
  beatsPerMeasure : ℚ
  offset : ℚ
deriving DecidableEq, Repr

/-- Field `this.secondsPerBeat = 60 / this.bpm` (constructor line 8). -/
def BMSConfig.secondsPerBeat (cfg : BMSConfig) : ℚ := 60 / cfg.bpm

/-- One entry of a `measures` array: per-lane pattern strings. -/
structure BMSMeasure where
  topLane : String
  bottomLane : String
  effects : String
deriving DecidableEq, Repr

/-- The note record pushed by `processLane` (lines 50–60).  The redundant
`topLane`/`bottomLane` booleans of the JS record are determined by `lane`
and are omitted; `type` is always the string `'single'` and is omitted. -/
structure BMSNote where
  hitTime : ℚ
  spawnTime : ℚ
  lane : Lane
  measureIndex : ℕ
  beatPosition : ℚ
  subdivisionIndex : ℕ
deriving DecidableEq, Repr

/-- Method `processLane(lanePattern, measureIndex, laneName, notes)`
(bms-timing-engine.js lines 36–65).  On a null/empty pattern or a pattern
whose length differs from `subdivision` it only logs a warning and emits no
notes (lines 37–40); otherwise for every `'1'` character it pushes a note
with `hitTime` from the grid formula and `spawnTime = hitTime − 3000`
(line 52), with no lower bound on `spawnTime`. -/
def processLane (cfg : BMSConfig) (lanePattern : String) (measureIndex : ℕ)
    (lane : Lane) : List BMSNote :=
  if lanePattern.data = [] ∨ lanePattern.length ≠ cfg.subdivision then []
  else
    lanePattern.data.enum.filterMap fun ic =>
      if ic.2 = '1' then
        let beatPosition : ℚ := ((ic.1 : ℚ) / (cfg.subdivision : ℚ)) * cfg.beatsPerMeasure
        let absoluteBeat : ℚ := (measureIndex : ℚ) * cfg.beatsPerMeasure + beatPosition
        let timeInSeconds : ℚ := absoluteBeat * cfg.secondsPerBeat + cfg.offset
        let timeInMs : ℚ := timeInSeconds * 1000
        some { hitTime := timeInMs
               spawnTime := timeInMs - 3000
               lane := lane
               measureIndex := measureIndex
               beatPosition := beatPosition
               subdivisionIndex := ic.1 }
      else none

/-- Stable insertion used to model `notes.sort((a, b) => a.hitTime - b.hitTime)`
(line 30): a stable sort ascending by `hitTime`. -/
def insertByHitTime (n : BMSNote) : List BMSNote → List BMSNote
  | [] => [n]
  | m :: ms => if n.hitTime ≤ m.hitTime then n :: m :: ms else m :: insertByHitTime n ms

/-- Stable sort ascending by `hitTime`. -/
def sortByHitTime : List BMSNote → List BMSNote
  | [] => []
  | n :: ns => insertByHitTime n (sortByHitTime ns)

/-- Errors thrown by `BMSTimingEngine`; the JS code throws plain `Error`
objects with messages, modelled structurally. -/
inductive ChartValidationError where
  | difficultyNotFound (difficulty : String)
  | nullPattern (patternName : String)
  | lengthMismatch (patternName : String) (got expected : ℕ)
  | invalidChar (c : Char) (position : ℕ) (patternName : String)
deriving DecidableEq, Repr

/-- Method `convertToGameFormat(difficulty)` (lines 14–34): look the difficulty up in
`chartData.charts` (throwing if absent, lines 16–18), run `processLane` on the
top then the bottom lane of each measure in order, then sort by `hitTime`.
`charts` is the association list of difficulty name to measure list. -/
def convertToGameFormat (cfg : BMSConfig)
    (charts : List (String × List BMSMeasure)) (difficulty : String) :
    Except ChartValidationError (List BMSNote) :=
  match charts.lookup difficulty with
  | none => .error (.difficultyNotFound difficulty)
  | some measures =>
      .ok (sortByHitTime
        ((measures.enum.map fun mi =>
            processLane cfg mi.2.topLane mi.1 .top
              ++ processLane cfg mi.2.bottomLane mi.1 .bottom).flatten))

/-- Method `validatePattern(pattern, patternName)` (lines 86–103): throws on a
falsy pattern, then on a length mismatch, then on the first character outside
`['0', '1']`; returns `true` (here `()`) otherwise. -/
def validatePattern (cfg : BMSConfig) (pattern : String) (patternName : String) :
    Except ChartValidationError Unit :=
  if pattern.data = [] then .error (.nullPattern patternName)
  else if pattern.length ≠ cfg.subdivision then
    .error (.lengthMismatch patternName pattern.length cfg.subdivision)
  else
    match pattern.data.enum.find? (fun ic => ¬(ic.2 = '0' ∨ ic.2 = '1')) with
    | some ic => .error (.invalidChar ic.2 ic.1 patternName)
    | none => .ok ()

/-- The metadata of `BMSTimingEngine.createTestChart()` (lines 168–178):
bpm 120, subdivision 16, 4 beats per measure, offset 0. -/
def testChartCfg : BMSConfig :=
  { bpm := 120, subdivision := 16, beatsPerMeasure := 4, offset := 0 }

/-- The `charts` section of `createTestChart()` (lines 182–233). -/
def testChartCharts : List (String × List BMSMeasure) :=
  [ ("easy",
      [ { topLane := "1000100010001000", bottomLane := "0010001000100010",
          effects := "0000000000000000" },
        { topLane := "1010000010100000", bottomLane := "0000101000001010",
          effects := "0000000000000000" },
        { topLane := "1000100010001000", bottomLane := "0100010001000100",
          effects := "0000000000000000" },
        { topLane := "1111000011110000", bottomLane := "0000111100001111",
          effects := "0000000000000000" } ]),
    ("hard",
      [ { topLane := "1010101010101010", bottomLane := "0101010101010101",
          effects := "0000000000000000" },
        { topLane := "1100110011001100", bottomLane := "0011001100110011",
          effects := "0000000000000000" },
        { topLane := "1111101011111010", bottomLane := "0101011101010111",
          effects := "0000000000000000" },
        { topLane := "1000100010001000", bottomLane := "0010001000100010",
          effects := "0000000000000000" } ]) ]

/-! ## Procedural chart generation (`src/scripts/beat-chart-generator.js`) -/

/-- One step of a rhythm pattern table (`initializePatterns`). -/
structure GenPattern where
  top : Bool
  bottom : Bool
deriving DecidableEq, Repr

/-- The five pattern-table names used by `defineSongStructure`. -/
inductive SectionKind where
  | basic
  | intense
  | complex
  | sparse
  | buildup
deriving DecidableEq, Repr

/-- Table `this.patterns` (beat-chart-generator.js lines 7–71). -/
def patternsFor : SectionKind → List GenPattern
  | .basic =>
      [⟨true, false⟩, ⟨false, false⟩, ⟨false, true⟩, ⟨false, false⟩,
       ⟨true, false⟩, ⟨false, true⟩, ⟨false, false⟩, ⟨false, true⟩]
  | .intense =>
      [⟨true, false⟩, ⟨false, true⟩, ⟨true, false⟩, ⟨false, true⟩,
       ⟨true, true⟩, ⟨false, false⟩, ⟨true, false⟩, ⟨false, true⟩]
  | .complex =>
      [⟨true, false⟩, ⟨true, false⟩, ⟨false, true⟩, ⟨false, false⟩,
       ⟨false, true⟩, ⟨false, true⟩, ⟨true, true⟩, ⟨false, false⟩]
  | .sparse =>
      [⟨true, false⟩, ⟨false, false⟩, ⟨false, false⟩, ⟨false, true⟩,
       ⟨false, false⟩, ⟨false, false⟩, ⟨true, false⟩, ⟨false, false⟩]
  | .buildup =>
      [⟨false, false⟩, ⟨true, false⟩, ⟨false, false⟩, ⟨false, true⟩,
       ⟨false, false⟩, ⟨true, false⟩, ⟨false, true⟩, ⟨true, true⟩]

/-- One entry of `defineSongStructure`'s return value.  `stop` is the JS
field `end` (a Lean keyword). -/
structure SongSection where
  name : String
  start : ℚ
  stop : ℚ
  kind : SectionKind
  intensity : ℚ
  patternChangeEvery : ℕ
deriving DecidableEq, Repr

/-- Method `defineSongStructure(totalBeats)` (lines 123–139) with
`beatsPerSection = 32`. -/
def defineSongStructure (totalBeats : ℚ) : List SongSection :=
  [ { name := "intro", start := 0, stop := 32, kind := .sparse,
      intensity := 3/10, patternChangeEvery := 16 },
    { name := "verse1", start := 32, stop := 32 * 2, kind := .basic,
      intensity := 5/10, patternChangeEvery := 8 },
    { name := "buildup1", start := 32 * 2, stop := 32 * (5/2), kind := .buildup,
      intensity := 7/10, patternChangeEvery := 4 },
    { name := "drop1", start := 32 * (5/2), stop := 32 * 4, kind := .intense,
      intensity := 1, patternChangeEvery := 8 },
    { name := "breakdown1", start := 32 * 4, stop := 32 * 5, kind := .sparse,
      intensity := 4/10, patternChangeEvery := 8 },
    { name := "verse2", start := 32 * 5, stop := 32 * 6, kind := .basic,
      intensity := 6/10, patternChangeEvery := 8 },
    { name := "buildup2", start := 32 * 6, stop := 32 * (13/2), kind := .buildup,
      intensity := 8/10, patternChangeEvery := 4 },
    { name := "drop2", start := 32 * (13/2), stop := 32 * 8, kind := .complex,
      intensity := 1, patternChangeEvery := 8 },
    { name := "outro", start := 32 * 8, stop := totalBeats, kind := .sparse,
      intensity := 3/10, patternChangeEvery := 16 } ]

/-- Method `getCurrentSection(beat, songStructure)` (lines 141–149): the first
section with `start ≤ beat < end`, else the last section.  `none` only on an
empty structure (where the JS code would return `undefined`). -/
def getCurrentSection (beat : ℚ) (sections : List SongSection) : Option SongSection :=
  match sections.find? (fun sec => decide (sec.start ≤ beat) && decide (beat < sec.stop)) with
  | some sec => some sec
  | none => sections.getLast?

/-- The note record pushed by `generateChart` (lines 98–106). -/
structure GenNote where
  spawnTime : ℚ
  hitTime : ℚ
  topLane : Bool
  bottomLane : Bool
  beat : ℕ
  sectionName : String
  intensity : ℚ
deriving DecidableEq, Repr

/-- The `while (currentBeat < totalBeats)` loop of `generateChart`
(lines 87–117), structured on the remaining beat count.  Per iteration:
select the current section's pattern table, take entry
`patternIndex % pattern.length`, compute `hitTime = currentBeat * beatInterval`
and `spawnTime = hitTime − travelTimeMs`, and push a note only when
`spawnTime ≥ 0` and the pattern marks at least one lane (lines 92–108);
`patternIndex` resets whenever the incremented `currentBeat` is a multiple of
`patternChangeEvery || 8` (lines 113–116). -/
def genLoop (beatInterval travelTimeMs : ℚ) (sections : List SongSection) :
    ℕ → ℕ → ℕ → List GenNote
  | 0, _, _ => []
  | fuel + 1, currentBeat, patternIndex =>
    match getCurrentSection (currentBeat : ℚ) sections with
    | none => []
    | some sec =>
      let pattern := patternsFor sec.kind
      let currentPattern := (pattern.get? (patternIndex % pattern.length)).getD ⟨false, false⟩
      let hitTime : ℚ := (currentBeat : ℚ) * beatInterval
      let spawnTime : ℚ := hitTime - travelTimeMs
      let changeEvery := if sec.patternChangeEvery = 0 then 8 else sec.patternChangeEvery
      let nextPatternIndex := if (currentBeat + 1) % changeEvery = 0 then 0 else patternIndex + 1
      let rest := genLoop beatInterval travelTimeMs sections fuel (currentBeat + 1) nextPatternIndex
      if 0 ≤ spawnTime ∧ (currentPattern.top ∨ currentPattern.bottom) then
        { spawnTime := spawnTime, hitTime := hitTime,
          topLane := currentPattern.top, bottomLane := currentPattern.bottom,
          beat := currentBeat, sectionName := sec.name,
          intensity := sec.intensity } :: rest
      else rest

/-- Method `generateChart(durationMs, travelTimeMs = 3000)` (lines 73–121).
`beatInterval` is `audioManager.beatInterval = (60 / bpm) * 1000`
(audio-manager.js line 12); `totalBeats = Math.floor(durationMs / beatInterval)`. -/
def generateChart (beatInterval durationMs travelTimeMs : ℚ) : List GenNote :=
  let totalBeats : ℤ := (durationMs / beatInterval).floor
  genLoop beatInterval travelTimeMs (defineSongStructure (totalBeats : ℚ)) totalBeats.toNat 0 0

/-! ## Score state and grading (`src/scripts/chart-loader.js`, `GameStateManager`) -/

/-- The mutable score state of `GameStateManager`: `scores.current`,
`scores.combo`, `scores.maxCombo` and the judgment counters `stats`
(chart-loader.js lines 182–194; the persisted high score is out of scope). -/
structure ScoreState where
  current : ℤ
  combo : ℕ
  maxCombo : ℕ
  perfect : ℕ
  great : ℕ
  good : ℕ
  miss : ℕ
  hold : ℕ
deriving DecidableEq, Repr

/-- The all-zero state set by `resetGame` (lines 340–348). -/
def ScoreState.init : ScoreState :=
  { current := 0, combo := 0, maxCombo := 0,
    perfect := 0, great := 0, good := 0, miss := 0, hold := 0 }

/-- Method `updateScore(points, judgment)` (lines 350–364): add the points, bump the
judgment's counter, and increment the combo (tracking the running maximum) on
any non-miss judgment, resetting it to zero on miss. -/
def updateScore (s : ScoreState) (points : ℤ) (j : Judgment) : ScoreState :=
  let s := { s with current := s.current + points }
  let s :=
    match j with
    | .perfect => { s with perfect := s.perfect + 1 }
    | .great => { s with great := s.great + 1 }
    | .good => { s with good := s.good + 1 }
    | .miss => { s with miss := s.miss + 1 }
    | .hold => { s with hold := s.hold + 1 }
  if j ≠ Judgment.miss then
    { s with combo := s.combo + 1, maxCombo := max s.maxCombo (s.combo + 1) }
  else
    { s with combo := 0 }

/-- Letter grades returned by `calculateGrade`. -/
inductive Grade where
  | S
  | A
  | B
  | C
  | D
deriving DecidableEq, Repr

/-- Method `calculateGrade()` (chart-loader.js lines 382–393):
`total = perfect + great + good + miss` (hold ticks are not judged notes),
`D` when no note was judged, otherwise thresholds on
`accuracy = (perfect + great*0.8 + good*0.5) / total`. -/
def calculateGrade (s : ScoreState) : Grade :=
  let total : ℕ := s.perfect + s.great + s.good + s.miss
  if total = 0 then .D
  else
    let accuracy : ℚ :=
      ((s.perfect : ℚ) + (s.great : ℚ) * (8/10) + (s.good : ℚ) * (5/10)) / (total : ℚ)
    if accuracy ≥ 95/100 then .S
    else if accuracy ≥ 90/100 then .A
    else if accuracy ≥ 80/100 then .B
    else if accuracy ≥ 70/100 then .C
    else .D

/-- Modelled from the spec (§4.5 / §8): the grade as a function of the closed
judgment counts, phrased with the division cleared — `accuracy ≥ c` becomes
`c * totalJudged ≤ perfect + great*0.8 + good*0.5` — and `D` by convention
when zero notes were judged.  Compared against `calculateGrade` below. -/
def gradeOfCountsSpec (perfect great good miss : ℕ) : Grade :=
  let totalJudged : ℕ := perfect + great + good + miss
  let weighted : ℚ := (perfect : ℚ) + (great : ℚ) * (8/10) + (good : ℚ) * (5/10)
  if totalJudged = 0 then .D
  else if (95/100 : ℚ) * (totalJudged : ℚ) ≤ weighted then .S
  else if (90/100 : ℚ) * (totalJudged : ℚ) ≤ weighted then .A
  else if (80/100 : ℚ) * (totalJudged : ℚ) ≤ weighted then .B
  else if (70/100 : ℚ) * (totalJudged : ℚ) ≤ weighted then .C
  else .D

/-! ## The live game engine (`src/unnamed/part_000`, `class GameEngine`)

This is the hold-note-aware `GameEngine` the `GameStateManager` drives (its
`handleInput(lane, action)` signature matches the manager's calls).  Tick and
input handlers receive the current game time `t = performance.now() − startTime`
as an explicit parameter.  A note's DOM element being attached
(`note.element && note.element.parentElement`) is the boolean `attached`. -/

/-- The `'normal'` and `'hold'` note types. -/
inductive NoteType where
  | normal
  | hold
deriving DecidableEq, Repr

/-- The mutable note record built by `createNote` (part_000 lines 159–171),
identified by `id` (modelling JS object identity). -/
structure LiveNote where
  id : ℕ
  lane : Lane
  hitTime : ℚ
  type : NoteType
  duration : ℚ
  spawnTime : ℚ
  hit : Bool
  isHolding : Bool
  holdStartTime : Option ℚ
  holdScore : ℤ
  screenPosition : ℚ
  attached : Bool
deriving DecidableEq, Repr

/-- The `activeHoldNotes` `Map` (lane → note), at most one entry per lane by
construction of the key type; entries are note ids. -/
structure HoldMap where
  top : Option ℕ
  bottom : Option ℕ
deriving DecidableEq, Repr

/-- Lookup, `Map.get(lane)`. -/
def HoldMap.get (m : HoldMap) : Lane → Option ℕ
  | .top => m.top
  | .bottom => m.bottom

/-- Update, `Map.set(lane, v)` / `Map.delete(lane)` (with `none`). -/
def HoldMap.set (m : HoldMap) : Lane → Option ℕ → HoldMap
  | .top, v => { m with top := v }
  | .bottom, v => { m with bottom := v }

/-- The empty map, also `Map.clear()`. -/
def HoldMap.empty : HoldMap := { top := none, bottom := none }

/-- The engine state relevant to the timing/judgment core: the playback
flags, `startTime`, `window.innerWidth` (constant during a session), the
live-note array, the active-hold map and the manager's score state. -/
structure EngineState where
  isPlaying : Bool
  isPaused : Bool
  startTime : ℚ
  innerWidth : ℚ
  notes : List LiveNote
  activeHoldNotes : HoldMap
  score : ScoreState
deriving DecidableEq, Repr

/-- The hit-zone x position `window.innerWidth * 0.15` used throughout. -/
def hitZonePosition (s : EngineState) : ℚ := s.innerWidth * (15/100)

/-- Mutation of the note object with id `i` (JS mutates through the object
reference; ids are unique in any reachable state). -/
def updateNoteById (i : ℕ) (f : LiveNote → LiveNote) (notes : List LiveNote) :
    List LiveNote :=
  notes.map fun n => if n.id = i then f n else n

/-- Look a note id up in the note array. -/
def findNote (s : EngineState) (i : ℕ) : Option LiveNote :=
  s.notes.find? fun n => n.id = i

/-- The selection loop of `findHittableNote` (part_000 lines 358–382): over
the notes of `lane` that are unresolved and still attached, keep the note of
strictly minimal `|screenPosition − hitZonePosition|`, accepted only when the
distance is under the 100-unit outer window. -/
def closestPass (hz : ℚ) (lane : Lane) :
    List LiveNote → Option (LiveNote × ℚ) → Option (LiveNote × ℚ)
  | [], best => best
  | n :: ns, best =>
    if n.lane = lane ∧ n.hit = false ∧ n.attached = true then
      let d := |n.screenPosition - hz|
      let closer := match best with
        | none => true
        | some bd => decide (d < bd.2)
      if closer && decide (d < 100) then
        closestPass hz lane ns (some (n, d))
      else
        closestPass hz lane ns best
    else
      closestPass hz lane ns best

/-- Method `findHittableNote(lane)` (lines 358–382). -/
def findHittableNote (s : EngineState) (lane : Lane) : Option LiveNote :=
  (closestPass (hitZonePosition s) lane s.notes none).map fun nd => nd.1

/-- Method `calculateJudgment(note)` (lines 384–392): distance thresholds
30/60/90 around the hit zone. -/
def calculateJudgment (s : EngineState) (n : LiveNote) : Judgment :=
  let distance := |n.screenPosition - hitZonePosition s|
  if distance ≤ 30 then .perfect
  else if distance ≤ 60 then .great
  else if distance ≤ 90 then .good
  else .miss

/-- Method `calculateScore(judgment)` (lines 394–403); `scores[judgment] || 0`
yields 0 for `'hold'`. -/
def calculateScore : Judgment → ℤ
  | .perfect => 300
  | .great => 200
  | .good => 100
  | .miss => 0
  | .hold => 0

/-- The `nearbyNotes` filter of `handleKeyPress` (lines 298–302): unresolved
notes of the lane within the 100-unit outer window (no attachment check,
unlike `findHittableNote`). -/
def nearbyNotes (s : EngineState) (lane : Lane) : List LiveNote :=
  s.notes.filter fun n =>
    decide (n.lane = lane) && !n.hit &&
      decide (|n.screenPosition - hitZonePosition s| < 100)

/-- Method `completeHoldNote(holdNote, judgment)` (lines 334–356): award the flat
completion bonus through `updateScore` for perfect/great/good (nothing is
recorded for miss), then clear `isHolding` and delete the note's lane from
`activeHoldNotes`.  `lane` is `holdNote.lane`, passed by the caller that
fetched the note. -/
def completeHoldNote (i : ℕ) (lane : Lane) (j : Judgment) (s : EngineState) :
    EngineState :=
  let s :=
    match j with
    | .perfect => { s with score := updateScore s.score 500 .perfect }
    | .great => { s with score := updateScore s.score 300 .great }
    | .good => { s with score := updateScore s.score 100 .good }
    | _ => s
  { s with
    notes := updateNoteById i (fun m => { m with isHolding := false }) s.notes
    activeHoldNotes := s.activeHoldNotes.set lane none }

/-- Method `handleKeyPress(lane)` (lines 266–308) at game time `t`.  A hold target
starts holding (`holdStartTime := t`, entered into `activeHoldNotes`) and is
scored with its press judgment; a normal target is resolved and scored; with
no target, an explicit miss is recorded iff some unresolved note of the lane
is within the outer window. -/
def handleKeyPress (t : ℚ) (lane : Lane) (s : EngineState) : EngineState :=
  match findHittableNote s lane with
  | some hitNote =>
    let j := calculateJudgment s hitNote
    if hitNote.type = NoteType.hold then
      { s with
        notes := updateNoteById hitNote.id
          (fun m => { m with isHolding := true, holdStartTime := some t, hit := true })
          s.notes
        activeHoldNotes := s.activeHoldNotes.set lane (some hitNote.id)
        score := updateScore s.score (calculateScore j) j }
    else
      { s with
        notes := updateNoteById hitNote.id (fun m => { m with hit := true }) s.notes
        score := updateScore s.score (calculateScore j) j }
  | none =>
    if 0 < (nearbyNotes s lane).length then
      { s with score := updateScore s.score 0 .miss }
    else
      s

/-- Method `handleKeyRelease(lane)` (lines 310–332) at game time `t`: only an entry
of `activeHoldNotes` that is still holding is resolved — as a forced perfect
when the hold ran its full duration, otherwise by the completion-ratio
buckets 0.9/0.7, defaulting to miss. -/
def handleKeyRelease (t : ℚ) (lane : Lane) (s : EngineState) : EngineState :=
  match s.activeHoldNotes.get lane with
  | none => s
  | some i =>
    match findNote s i with
    | none => s
    | some holdNote =>
      if holdNote.isHolding then
        let holdDuration := t - holdNote.holdStartTime.getD 0
        if holdDuration ≥ holdNote.duration then
          completeHoldNote i holdNote.lane .perfect s
        else
          let completionPercentage := holdDuration / holdNote.duration
          let j : Judgment :=
            if completionPercentage ≥ 9/10 then .great
            else if completionPercentage ≥ 7/10 then .good
            else .miss
          completeHoldNote i holdNote.lane j s
      else s

/-- JS truthiness of `holdNote.holdStartTime` (line 226): `null` and `0` are
falsy. -/
def truthyTime : Option ℚ → Bool
  | none => false
  | some v => decide (v ≠ 0)

/-- The progressive-award step of `updateHoldNotes` (lines 230–237): the
total earned so far is `Math.floor(holdDuration / 100) * 10`; only the part
exceeding the already-awarded `holdNote.holdScore` is credited, through
`updateScore(newScore, 'hold')`. -/
def awardProgressive (t : ℚ) (i : ℕ) (holdNote : LiveNote) (s : EngineState) :
    EngineState :=
  let holdDuration := t - holdNote.holdStartTime.getD 0
  let progressivePoints : ℤ := (holdDuration / 100).floor * 10
  let newScore := progressivePoints - holdNote.holdScore
  if 0 < newScore then
    { s with
      notes := updateNoteById i
        (fun m => { m with holdScore := progressivePoints }) s.notes
      score := updateScore s.score newScore .hold }
  else s

/-- The body of `updateHoldNotes` for one map entry (lines 225–247): for a
holding note with a truthy `holdStartTime`, compute
`holdDuration = gameTime − holdStartTime`, award the newly crossed
progressive increments, then force-resolve as a perfect completion once
`holdDuration ≥ duration`. -/
def updateHoldLane (t : ℚ) (lane : Lane) (s : EngineState) : EngineState :=
  match s.activeHoldNotes.get lane with
  | none => s
  | some i =>
    match findNote s i with
    | none => s
    | some holdNote =>
      if holdNote.isHolding && truthyTime holdNote.holdStartTime then
        let holdDuration := t - holdNote.holdStartTime.getD 0
        let s1 := awardProgressive t i holdNote s
        if holdDuration ≥ holdNote.duration then
          completeHoldNote i holdNote.lane .perfect s1
        else s1
      else s

/-- Method `updateHoldNotes(gameTime)` (lines 223–248): the per-tick pass over the
`activeHoldNotes` map.  The JS `Map` iterates in insertion order; with at
most one entry per lane the fixed top-then-bottom order processes the same
entries. -/
def updateHoldNotes (t : ℚ) (s : EngineState) : EngineState :=
  updateHoldLane t .bottom (updateHoldLane t .top s)

/-- Method `handleInput(lane, action)` (lines 254–264): ignored unless playing and
not paused. -/
def handleInput (t : ℚ) (lane : Lane) (press : Bool) (s : EngineState) :
    EngineState :=
  if s.isPlaying && !s.isPaused then
    if press then handleKeyPress t lane s else handleKeyRelease t lane s
  else s

/-- Method `pauseGame()` (lines 84–90): toggles `isPaused` and (on resume) restarts
the animation frame; no other state — in particular `startTime` — changes. -/
def pauseGame (s : EngineState) : EngineState :=
  { s with isPaused := !s.isPaused }

/-- The elapsed game time the `update()` tick computes (line 115):
`gameTime = currentTime − this.startTime`. -/
def gameTimeAt (s : EngineState) (now : ℚ) : ℚ := now - s.startTime

/-- The state mutations of `stopGame()` (lines 92–109): clear the playback
flags, remove every note (`clearAllNotes`) and clear `activeHoldNotes`. -/
def stopGameCore (s : EngineState) : EngineState :=
  { s with isPlaying := false, isPaused := false,
           notes := [], activeHoldNotes := HoldMap.empty }

/-! ## The ActiveHolds invariant (spec §3) -/

/-- One lane's half of the ActiveHolds invariant: an entry of the map points
at a live note of that lane that is in the Holding state. -/
def holdEntryOk (notes : List LiveNote) (holds : HoldMap) (lane : Lane) : Prop :=
  ∀ i ∈ holds.get lane, ∃ n ∈ notes, n.id = i ∧ n.lane = lane ∧ n.isHolding = true

/-- The ActiveHolds invariant over a note list and hold map: note ids are
distinct (modelling JS object identity), every map entry points at a Holding
note of its lane, and every Holding note is its lane's map entry.  At most
one entry per lane holds by construction of `HoldMap`. -/
def holdInv (notes : List LiveNote) (holds : HoldMap) : Prop :=
  (notes.map fun n => n.id).Nodup ∧
  holdEntryOk notes holds .top ∧
  holdEntryOk notes holds .bottom ∧
  ∀ n ∈ notes, n.isHolding = true → holds.get n.lane = some n.id

/-- The ActiveHolds invariant of an engine state: a lane appears in
`activeHoldNotes` iff its live hold note is in the Holding state. -/
def EngineInv (s : EngineState) : Prop :=
  holdInv s.notes s.activeHoldNotes

instance decidableBAllOptionNat (p : ℕ → Prop) [DecidablePred p] :
    (o : Option ℕ) → Decidable (∀ i ∈ o, p i)
  | none => isTrue (by simp)
  | some a => decidable_of_iff (p a) (by simp)

instance (notes : List LiveNote) (holds : HoldMap) (lane : Lane) :
    Decidable (holdEntryOk notes holds lane) := by
  unfold holdEntryOk; infer_instance

instance (notes : List LiveNote) (holds : HoldMap) : Decidable (holdInv notes holds) := by
  unfold holdInv; infer_instance

instance (s : EngineState) : Decidable (EngineInv s) := by
  unfold EngineInv; infer_instance

/-! ## Concrete scenarios -/

/-- A chart holding the single measure of the spec's end-to-end scenario
(§8): top lane `"1000100010001000"`, silent bottom lane, under the
`createTestChart` metadata (bpm 120, subdivision 16, 4 beats/measure,
offset 0). -/
def quarterNoteCharts : List (String × List BMSMeasure) :=
  [("easy", [{ topLane := "1000100010001000", bottomLane := "0000000000000000",
               effects := "0000000000000000" }])]

/-- A chart whose top-lane pattern has length 8 against subdivision 16, with
a well-formed bottom lane. -/
def malformedCharts : List (String × List BMSMeasure) :=
  [("easy", [{ topLane := "10001000", bottomLane := "0010001000100010",
               effects := "0000000000000000" }])]

/-- A freshly spawned 1000 ms hold note sitting exactly on the hit zone of a
1000-px viewport (screen position 150 = hit zone, distance 0). -/
def demoHoldNote : LiveNote :=
  { id := 0, lane := .top, hitTime := 3050, type := .hold, duration := 1000,
    spawnTime := 50, hit := false, isHolding := false, holdStartTime := none,
    holdScore := 0, screenPosition := 150, attached := true }

/-- A running session containing only `demoHoldNote`, with fresh scores. -/
def demoHoldSession : EngineState :=
  { isPlaying := true, isPaused := false, startTime := 0, innerWidth := 1000,
    notes := [demoHoldNote], activeHoldNotes := HoldMap.empty,
    score := ScoreState.init }

/-- Tick times 100 ms apart covering the full 1000 ms hold that starts at
game time 50 (the last tick reaches `holdDuration = 1000` exactly). -/
def holdTickTimes : List ℚ :=
  [150, 250, 350, 450, 550, 650, 750, 850, 950, 1050]

/-- The state after pressing the hold at `t = 50` (perfect distance) and
running the `updateHoldNotes` tick at each of `holdTickTimes`: the hold is
held for exactly its 1000 ms duration and force-resolved by the final tick. -/
def heldToCompletion : EngineState :=
  holdTickTimes.foldl (fun s t => updateHoldNotes t s)
    (handleInput 50 .top true demoHoldSession)

/-- The state after pressing the hold at `t = 50` (perfect distance) and
releasing at `t = 550`, i.e. after 500 ms of a 1000 ms hold — completion
ratio 0.5, below the 0.7 miss threshold. -/
def earlyReleaseFinal : EngineState :=
  handleKeyRelease 550 .top (handleInput 50 .top true demoHoldSession)

/-- A hold note currently in the Holding state (pressed at game time 900). -/
def holdingNote : LiveNote :=
  { id := 0, lane := .top, hitTime := 1000, type := .hold, duration := 1600,
    spawnTime := 0, hit := true, isHolding := true, holdStartTime := some 900,
    holdScore := 0, screenPosition := 140, attached := true }

/-- A second, unresolved hold note in the same lane, inside the outer hit
window (distance 10 from the hit zone at 150). -/
def overlappingHoldNote : LiveNote :=
  { id := 1, lane := .top, hitTime := 1800, type := .hold, duration := 1600,
    spawnTime := 0, hit := false, isHolding := false, holdStartTime := none,
    holdScore := 0, screenPosition := 160, attached := true }

/-- A state satisfying the ActiveHolds invariant in which the top lane is
holding note 0 while unresolved hold note 1 is also inside the hit window. -/
def overlappingHoldState : EngineState :=
  { isPlaying := true, isPaused := false, startTime := 0, innerWidth := 1000,
    notes := [holdingNote, overlappingHoldNote],
    activeHoldNotes := { top := some 0, bottom := none },
    score := ScoreState.init }

/-- A session at `startTime = 0` with no notes, used for the pause/resume
clock evaluation. -/
def demoSession : EngineState :=
  { isPlaying := true, isPaused := false, startTime := 0, innerWidth := 1000,
    notes := [], activeHoldNotes := HoldMap.empty, score := ScoreState.init }

/-- An unresolved note of the top lane inside the outer window whose DOM
element is detached, so it is no `findHittableNote` target but passes the
`nearbyNotes` filter. -/
def detachedNote : LiveNote :=
  { id := 7, lane := .top, hitTime := 500, type := .normal, duration := 0,
    spawnTime := 0, hit := false, isHolding := false, holdStartTime := none,
    holdScore := 0, screenPosition := 170, attached := false }

/-- A running session whose only note is `detachedNote`. -/
def detachedNoteSession : EngineState :=
  { isPlaying := true, isPaused := false, startTime := 0, innerWidth := 1000,
    notes := [detachedNote], activeHoldNotes := HoldMap.empty,
    score := ScoreState.init }

/-- A running session with one unresolved normal note far from the hit zone
(distance 650) and no active holds. -/
def idleLaneSession : EngineState :=
  { isPlaying := true, isPaused := false, startTime := 0, innerWidth := 1000,
    notes := [{ id := 3, lane := .top, hitTime := 5000, type := .normal,
                duration := 0, spawnTime := 2000, hit := false,
                isHolding := false, holdStartTime := none, holdScore := 0,
                screenPosition := 800, attached := true }],
    activeHoldNotes := HoldMap.empty, score := ScoreState.init }

/-- The first note generated by `generateChart` with beat interval 500 ms,
duration 4000 ms and travel time 0 (beat 0 of the sparse intro pattern). -/
def genWitnessNote : GenNote :=
  { spawnTime := 0, hitTime := 0, topLane := true, bottomLane := false,
    beat := 0, sectionName := "intro", intensity := 3/10 }

/-- The first note `processLane` emits for the quarter-note pattern. -/
def gridWitnessNote : BMSNote :=
  { hitTime := 0, spawnTime := -3000, lane := .top, measureIndex := 0,
    beatPosition := 0, subdivisionIndex := 0 }

/-! ## Helper lemmas -/

theorem HoldMap.get_set_self (m : HoldMap) (lane : Lane) (v : Option ℕ) :
    (m.set lane v).get lane = v := by
  cases lane <;> rfl

theorem HoldMap.get_set_of_ne (m : HoldMap) {lane lane' : Lane} (h : lane' ≠ lane)
    (v : Option ℕ) : (m.set lane v).get lane' = m.get lane' := by
  cases lane <;> cases lane' <;> simp_all [HoldMap.set, HoldMap.get]

theorem mem_updateNoteById {notes : List LiveNote} {m : LiveNote} {i : ℕ}
    {f : LiveNote → LiveNote} (hm : m ∈ updateNoteById i f notes) :
    ∃ n ∈ notes, m = if n.id = i then f n else n := by
  obtain ⟨n, hn, hg⟩ := List.mem_map.1 hm
  exact ⟨n, hn, hg.symm⟩

theorem updateNoteById_mem {notes : List LiveNote} {n : LiveNote} (hn : n ∈ notes)
    (i : ℕ) (f : LiveNote → LiveNote) :
    (if n.id = i then f n else n) ∈ updateNoteById i f notes :=
  List.mem_map_of_mem _ hn

theorem updateNoteById_map_id {i : ℕ} {f : LiveNote → LiveNote}
    (hf : ∀ n, (f n).id = n.id) (notes : List LiveNote) :
    (updateNoteById i f notes).map (fun n => n.id) = notes.map (fun n => n.id) := by
  simp only [updateNoteById, List.map_map]
  apply List.map_congr_left
  intro n _
  by_cases h : n.id = i <;> simp [h, hf]

theorem findNote_eq_some {s : EngineState} {i : ℕ} {n : LiveNote}
    (h : findNote s i = some n) : n ∈ s.notes ∧ n.id = i := by
  refine ⟨List.mem_of_find?_eq_some h, ?_⟩
  have := List.find?_some h
  simpa using this

theorem closestPass_sound (hz : ℚ) (lane : Lane) (l : List LiveNote) :
    ∀ (acc : Option (LiveNote × ℚ)) (r : LiveNote × ℚ),
      closestPass hz lane l acc = some r →
      acc = some r ∨ (r.1 ∈ l ∧ r.1.lane = lane ∧ r.1.hit = false) := by
  induction l with
  | nil =>
    intro acc r h
    simp only [closestPass] at h
    exact Or.inl h
  | cons n ns ih =>
    intro acc r h
    simp only [closestPass] at h
    by_cases hfil : n.lane = lane ∧ n.hit = false ∧ n.attached = true
    · rw [if_pos hfil] at h
      split at h
      · rcases ih _ _ h with hacc | ⟨hmem, hrl, hrh⟩
        · obtain rfl : n = r.1 := by
            have := Option.some.inj hacc
            rw [← this]
          exact Or.inr ⟨List.mem_cons_self _ _, hfil.1, hfil.2.1⟩
        · exact Or.inr ⟨List.mem_cons_of_mem _ hmem, hrl, hrh⟩
      · rcases ih _ _ h with hacc | ⟨hmem, hrl, hrh⟩
        · exact Or.inl hacc
        · exact Or.inr ⟨List.mem_cons_of_mem _ hmem, hrl, hrh⟩
    · rw [if_neg hfil] at h
      rcases ih _ _ h with hacc | ⟨hmem, hrl, hrh⟩
      · exact Or.inl hacc
      · exact Or.inr ⟨List.mem_cons_of_mem _ hmem, hrl, hrh⟩

theorem findHittableNote_some {s : EngineState} {lane : Lane} {n : LiveNote}
    (h : findHittableNote s lane = some n) :
    n ∈ s.notes ∧ n.lane = lane ∧ n.hit = false := by
  unfold findHittableNote at h
  obtain ⟨r, hr, hn⟩ := Option.map_eq_some'.1 h
  rcases closestPass_sound _ _ _ _ _ hr with hacc | hprops
  · exact absurd hacc (by simp)
  · rw [← hn]; exact hprops

theorem holdEntryOk_benign {notes : List LiveNote} {holds : HoldMap} {lane : Lane}
    {i : ℕ} {f : LiveNote → LiveNote}
    (hf : ∀ n, (f n).id = n.id ∧ (f n).lane = n.lane ∧ (f n).isHolding = n.isHolding)
    (h : holdEntryOk notes holds lane) :
    holdEntryOk (updateNoteById i f notes) holds lane := by
  intro j hj
  obtain ⟨m, hm, hid, hlane, hhold⟩ := h j hj
  refine ⟨if m.id = i then f m else m, updateNoteById_mem hm i f, ?_, ?_, ?_⟩
  · by_cases hmi : m.id = i
    · rw [if_pos hmi, (hf m).1, hid]
    · rw [if_neg hmi, hid]
  · by_cases hmi : m.id = i
    · rw [if_pos hmi, (hf m).2.1, hlane]
    · rw [if_neg hmi, hlane]
  · by_cases hmi : m.id = i
    · rw [if_pos hmi, (hf m).2.2, hhold]
    · rw [if_neg hmi, hhold]

theorem holdInv_benign_update {notes : List LiveNote} {holds : HoldMap} {i : ℕ}
    {f : LiveNote → LiveNote}
    (hf : ∀ n, (f n).id = n.id ∧ (f n).lane = n.lane ∧ (f n).isHolding = n.isHolding)
    (h : holdInv notes holds) : holdInv (updateNoteById i f notes) holds := by
  obtain ⟨hnd, htop, hbot, hall⟩ := h
  refine ⟨?_, holdEntryOk_benign hf htop, holdEntryOk_benign hf hbot, ?_⟩
  · rw [updateNoteById_map_id fun n => (hf n).1]; exact hnd
  · intro m' hm' hhold'
    obtain ⟨m, hm, hmeq⟩ := mem_updateNoteById hm'
    have hid : m'.id = m.id := by
      rw [hmeq]; by_cases hmi : m.id = i <;> simp [hmi, (hf m).1]
    have hlane : m'.lane = m.lane := by
      rw [hmeq]; by_cases hmi : m.id = i <;> simp [hmi, (hf m).2.1]
    have hholdm : m.isHolding = true := by
      rw [hmeq] at hhold'
      by_cases hmi : m.id = i
      · rw [if_pos hmi, (hf m).2.2] at hhold'; exact hhold'
      · rw [if_neg hmi] at hhold'; exact hhold'
    rw [hlane, hid]
    exact hall m hm hholdm


theorem holdInv_completeHoldNote {s : EngineState} {lane : Lane} {i : ℕ}
    (j : Judgment) (hInv : EngineInv s) (hget : s.activeHoldNotes.get lane = some i) :
    EngineInv (completeHoldNote i lane j s) := by
  obtain ⟨hnd, htop, hbot, hall⟩ := hInv
  have hlaneOk : holdEntryOk s.notes s.activeHoldNotes lane := by
    cases lane
    · exact htop
    · exact hbot
  obtain ⟨w, hw, hwid, hwlane, hwhold⟩ := hlaneOk i (Option.mem_def.2 hget)
  have hnotes : (completeHoldNote i lane j s).notes =
      updateNoteById i (fun m => { m with isHolding := false }) s.notes := by
    cases j <;> rfl
  have hholds : (completeHoldNote i lane j s).activeHoldNotes =
      s.activeHoldNotes.set lane none := by
    cases j <;> rfl
  unfold EngineInv
  rw [hnotes, hholds]
  have hfid : ∀ n : LiveNote, ({ n with isHolding := false } : LiveNote).id = n.id :=
    fun _ => rfl
  have hentry : ∀ l : Lane, holdEntryOk s.notes s.activeHoldNotes l →
      holdEntryOk (updateNoteById i (fun m => { m with isHolding := false }) s.notes)
        (s.activeHoldNotes.set lane none) l := by
    intro l hl j' hj'
    by_cases hll : l = lane
    · subst hll
      rw [HoldMap.get_set_self] at hj'
      simp at hj'
    · rw [HoldMap.get_set_of_ne _ hll] at hj'
      obtain ⟨m, hm, hmid, hmlane, hmhold⟩ := hl j' hj'
      have hmi : m.id ≠ i := by
        intro hmi
        have hmw : m = w := List.inj_on_of_nodup_map hnd hm hw (by rw [hmi, hwid])
        apply hll
        rw [← hmlane, hmw, hwlane]
      have hmem := updateNoteById_mem hm i (fun m => { m with isHolding := false })
      rw [if_neg hmi] at hmem
      exact ⟨m, hmem, hmid, hmlane, hmhold⟩
  refine ⟨?_, hentry _ htop, hentry _ hbot, ?_⟩
  · rw [updateNoteById_map_id hfid]; exact hnd
  · intro m' hm' hh'
    obtain ⟨m, hm, hmeq⟩ := mem_updateNoteById hm'
    by_cases hmi : m.id = i
    · rw [hmeq, if_pos hmi] at hh'
      simp at hh'
    · rw [if_neg hmi] at hmeq
      subst hmeq
      have hget' := hall m' hm hh'
      have hmlane : m'.lane ≠ lane := by
        intro he
        rw [he, hget] at hget'
        exact hmi (Option.some.inj hget').symm
      rw [HoldMap.get_set_of_ne _ hmlane]
      exact hget'

theorem holdInv_handleKeyRelease (t : ℚ) (lane : Lane) {s : EngineState}
    (hInv : EngineInv s) : EngineInv (handleKeyRelease t lane s) := by
  unfold handleKeyRelease
  split
  · exact hInv
  rename_i i hget
  split
  · exact hInv
  rename_i holdNote hfind
  obtain ⟨hmem, hid⟩ := findNote_eq_some hfind
  obtain ⟨hnd, htop, hbot, hall⟩ := hInv
  have hlaneOk : holdEntryOk s.notes s.activeHoldNotes lane := by
    cases lane
    · exact htop
    · exact hbot
  obtain ⟨w, hw, hwid, hwlane, hwhold⟩ := hlaneOk i (Option.mem_def.2 hget)
  have hwn : holdNote = w := List.inj_on_of_nodup_map hnd hmem hw (by rw [hid, hwid])
  have hget2 : s.activeHoldNotes.get holdNote.lane = some i := by
    rw [hwn, hwlane, hget]
  dsimp only
  split
  · split
    · exact holdInv_completeHoldNote _ ⟨hnd, htop, hbot, hall⟩ hget2
    · exact holdInv_completeHoldNote _ ⟨hnd, htop, hbot, hall⟩ hget2
  · exact ⟨hnd, htop, hbot, hall⟩

theorem awardProgressive_activeHoldNotes (t : ℚ) (i : ℕ) (holdNote : LiveNote)
    (s : EngineState) :
    (awardProgressive t i holdNote s).activeHoldNotes = s.activeHoldNotes := by
  unfold awardProgressive
  dsimp only
  split <;> rfl

theorem holdInv_awardProgressive (t : ℚ) (i : ℕ) (holdNote : LiveNote)
    {s : EngineState} (hInv : EngineInv s) :
    EngineInv (awardProgressive t i holdNote s) := by
  unfold awardProgressive
  dsimp only
  split
  · exact holdInv_benign_update (fun n => ⟨rfl, rfl, rfl⟩) hInv
  · exact hInv

theorem holdInv_updateHoldLane (t : ℚ) (lane : Lane) {s : EngineState}
    (hInv : EngineInv s) : EngineInv (updateHoldLane t lane s) := by
  unfold updateHoldLane
  split
  · exact hInv
  rename_i i hget
  split
  · exact hInv
  rename_i holdNote hfind
  obtain ⟨hmem, hid⟩ := findNote_eq_some hfind
  obtain ⟨hnd, htop, hbot, hall⟩ := hInv
  have hlaneOk : holdEntryOk s.notes s.activeHoldNotes lane := by
    cases lane
    · exact htop
    · exact hbot
  obtain ⟨w, hw, hwid, hwlane, hwhold⟩ := hlaneOk i (Option.mem_def.2 hget)
  have hwn : holdNote = w := List.inj_on_of_nodup_map hnd hmem hw (by rw [hid, hwid])
  have hget2 : s.activeHoldNotes.get holdNote.lane = some i := by
    rw [hwn, hwlane, hget]
  have hInv' : EngineInv s := ⟨hnd, htop, hbot, hall⟩
  dsimp only
  split
  · split
    · refine holdInv_completeHoldNote _ (holdInv_awardProgressive t i holdNote hInv') ?_
      rw [awardProgressive_activeHoldNotes]
      exact hget2
    · exact holdInv_awardProgressive t i holdNote hInv'
  · exact hInv'

theorem holdInv_updateHoldNotes (t : ℚ) {s : EngineState} (hInv : EngineInv s) :
    EngineInv (updateHoldNotes t s) :=
  holdInv_updateHoldLane t .bottom (holdInv_updateHoldLane t .top hInv)

theorem holdInv_stopGameCore (s : EngineState) : EngineInv (stopGameCore s) := by
  refine ⟨by simp [stopGameCore], ?_, ?_, ?_⟩
  · intro j hj
    simp [stopGameCore, HoldMap.empty, HoldMap.get] at hj
  · intro j hj
    simp [stopGameCore, HoldMap.empty, HoldMap.get] at hj
  · intro n hn
    simp [stopGameCore] at hn

theorem holdInv_handleKeyPress (t : ℚ) (lane : Lane) {s : EngineState}
    (hInv : EngineInv s) (hfree : s.activeHoldNotes.get lane = none) :
    EngineInv (handleKeyPress t lane s) := by
  unfold handleKeyPress
  split
  · rename_i hitNote hfound
    obtain ⟨hmem, hlane, hhit⟩ := findHittableNote_some hfound
    obtain ⟨hnd, htop, hbot, hall⟩ := hInv
    have hnotHolding : hitNote.isHolding ≠ true := by
      intro hh
      have := hall hitNote hmem hh
      rw [hlane, hfree] at this
      exact Option.noConfusion this
    dsimp only
    split
    · -- hold-type target: the lane's entry becomes the target note
      have hentry : ∀ l : Lane, holdEntryOk s.notes s.activeHoldNotes l →
          holdEntryOk
            (updateNoteById hitNote.id
              (fun m => { m with isHolding := true, holdStartTime := some t, hit := true })
              s.notes)
            (s.activeHoldNotes.set lane (some hitNote.id)) l := by
        intro l hl j hj
        by_cases hll : l = lane
        · subst hll
          rw [HoldMap.get_set_self] at hj
          have hji : j = hitNote.id := by
            rw [Option.mem_def] at hj
            exact (Option.some.inj hj).symm
          subst hji
          have hmem2 := updateNoteById_mem hmem hitNote.id
            (fun m => { m with isHolding := true, holdStartTime := some t, hit := true })
          rw [if_pos rfl] at hmem2
          exact ⟨_, hmem2, rfl, hlane, rfl⟩
        · rw [HoldMap.get_set_of_ne _ hll] at hj
          obtain ⟨m, hm, hmid, hmlane, hmhold⟩ := hl j hj
          have hmi : m.id ≠ hitNote.id := by
            intro he
            have hmn : m = hitNote := List.inj_on_of_nodup_map hnd hm hmem he
            rw [hmn] at hmhold
            exact hnotHolding hmhold
          have hmem2 := updateNoteById_mem hm hitNote.id
            (fun m => { m with isHolding := true, holdStartTime := some t, hit := true })
          rw [if_neg hmi] at hmem2
          exact ⟨m, hmem2, hmid, hmlane, hmhold⟩
      refine ⟨?_, hentry _ htop, hentry _ hbot, ?_⟩
      · rw [updateNoteById_map_id (i := hitNote.id)
            (f := fun m => { m with isHolding := true, holdStartTime := some t, hit := true })
            (fun _ => rfl)]
        exact hnd
      · intro m' hm' hh'
        obtain ⟨m, hm, hmeq⟩ := mem_updateNoteById hm'
        by_cases hmi : m.id = hitNote.id
        · have hmn : m = hitNote := List.inj_on_of_nodup_map hnd hm hmem hmi
          rw [hmeq, if_pos hmi, hmn]
          show (s.activeHoldNotes.set lane (some hitNote.id)).get hitNote.lane
              = some hitNote.id
          rw [hlane, HoldMap.get_set_self]
        · rw [hmeq, if_neg hmi] at hh' ⊢
          have hg := hall m hm hh'
          have hmlne : m.lane ≠ lane := by
            intro he
            rw [he, hfree] at hg
            exact Option.noConfusion hg
          rw [HoldMap.get_set_of_ne _ hmlne]
          exact hg
    · -- normal target: only the hit flag changes
      exact holdInv_benign_update (fun n => ⟨rfl, rfl, rfl⟩) ⟨hnd, htop, hbot, hall⟩
  · split
    · exact hInv
    · exact hInv

/-! ## Spawn-time policy lemmas -/

theorem genLoop_spawnTime (beatInterval travelTimeMs : ℚ) (sections : List SongSection) :
    ∀ (fuel currentBeat patternIndex : ℕ),
      ∀ note ∈ genLoop beatInterval travelTimeMs sections fuel currentBeat patternIndex,
        note.spawnTime = note.hitTime - travelTimeMs ∧ 0 ≤ note.spawnTime := by
  intro fuel
  induction fuel with
  | zero =>
    intro cb pi note h
    simp [genLoop] at h
  | succ n ih =>
    intro cb pi note h
    simp only [genLoop] at h
    cases hsec : getCurrentSection (cb : ℚ) sections with
    | none =>
      rw [hsec] at h
      simp at h
    | some sec =>
      rw [hsec] at h
      dsimp only at h
      split at h
      · rename_i hcond
        rcases List.mem_cons.1 h with rfl | hmem
        · exact ⟨rfl, hcond.1⟩
        · exact ih _ _ note hmem
      · exact ih _ _ note h

theorem processLane_spawnTime (cfg : BMSConfig) (p : String) (mi : ℕ) (lane : Lane) :
    ∀ n ∈ processLane cfg p mi lane, n.spawnTime = n.hitTime - 3000 := by
  intro n hn
  unfold processLane at hn
  split at hn
  · simp at hn
  · obtain ⟨ic, _, heq⟩ := List.mem_filterMap.1 hn
    dsimp only at heq
    split at heq
    · rw [← Option.some.inj heq]
    · exact Option.noConfusion heq

/-! ## Claim theorems -/

section
attribute [local semireducible] Rat.mul Rat.add Rat.sub Rat.inv Rat.ofScientific

/-- C1 (code bug evaluation): `pauseGame` only toggles `isPaused`, so a
pause/resume round trip is the identity on the engine state — in particular
`startTime` is never advanced by the paused duration — and the elapsed game
time computed by `update()` after a pause of duration 500 ms (paused at
t=1000, resumed at t=1500, queried at t=2000) is still `2000`, not the
`2000 − 500 = 1500` the claim requires. -/
theorem pause_resume_elapsed_time_evaluation :
    (∀ s : EngineState, pauseGame (pauseGame s) = s) ∧
    gameTimeAt (pauseGame (pauseGame demoSession)) 2000 = 2000 ∧
    gameTimeAt demoSession 2000 = 2000 ∧
    (2000 : ℚ) - 500 = 1500 := by
  refine ⟨?_, by decide, by decide, by decide⟩
  intro s
  cases s
  simp [pauseGame]

/-- C2 (counterexample): converting the repository's own
`createTestChart()` (easy difficulty) emits a note with negative
`spawnTime` — the first note has `hitTime = 0`, `spawnTime = −3000` — so
grid conversion does not drop notes whose spawn time is negative. -/
theorem testChart_schedule_negative_spawnTime :
    ∃ n ∈ (convertToGameFormat testChartCfg testChartCharts "easy").toOption.getD [],
      n.spawnTime < 0 := by decide

/-- C2 (amended): every note emitted by the procedural generator satisfies
`spawnTime = hitTime − travelTimeMs` and `spawnTime ≥ 0` (negative ones are
dropped, not shifted); every note emitted by grid conversion satisfies
`spawnTime = hitTime − 3000` but without the non-negativity guard. -/
theorem schedule_spawnTime_policy :
    (∀ (beatInterval durationMs travelTimeMs : ℚ),
       ∀ note ∈ generateChart beatInterval durationMs travelTimeMs,
         note.spawnTime = note.hitTime - travelTimeMs ∧ 0 ≤ note.spawnTime) ∧
    (∀ (cfg : BMSConfig) (p : String) (mi : ℕ) (lane : Lane),
       ∀ n ∈ processLane cfg p mi lane, n.spawnTime = n.hitTime - 3000) := by
  constructor
  · intro bi d tv note h
    unfold generateChart at h
    exact genLoop_spawnTime bi tv _ _ _ _ note h
  · exact processLane_spawnTime

theorem schedule_spawnTime_policy_witness :
    (genWitnessNote.spawnTime = genWitnessNote.hitTime - 0 ∧
      0 ≤ genWitnessNote.spawnTime) ∧
    gridWitnessNote.spawnTime = gridWitnessNote.hitTime - 3000 :=
  ⟨schedule_spawnTime_policy.1 500 4000 0 genWitnessNote (by decide),
   schedule_spawnTime_policy.2 testChartCfg "1000100010001000" 0 .top
     gridWitnessNote (by decide)⟩

/-- C3 (counterexample): pressing the 1000 ms hold note perfectly at t=50
and ticking every 100 ms until forced completion raises the combo from 0 to
12 — one increment for the press judgment, one per progressive `'hold'`
award (10 of them) and one for the completion bonus — not exactly one. -/
theorem hold_completion_combo_not_single :
    demoHoldSession.score.combo = 0 ∧
    heldToCompletion.score.combo = 12 ∧
    1 < heldToCompletion.score.combo := by decide

/-- C3 (amended): holding the 1000 ms hold note for exactly 1000 ms (pressed
at perfect distance at t=50, ticks every 100 ms) yields a perfect completion
bonus of exactly 500 on top of the 300-point press judgment, progressive
hold score of exactly `floor(1000/100)*10 = 100` awarded once
(`holdScore = 100`, ten `'hold'` counts, no re-award by later ticks or a
later release), and one combo increment per scoring event — 12 in total. -/
theorem hold_completion_scoring :
    heldToCompletion.score.current = 300 + 100 + 500 ∧
    heldToCompletion.score.hold = 10 ∧
    heldToCompletion.score.perfect = 2 ∧
    heldToCompletion.score.miss = 0 ∧
    (heldToCompletion.notes.map fun n => n.holdScore) = [100] ∧
    heldToCompletion.score.combo = 12 ∧
    updateHoldNotes 1150 heldToCompletion = heldToCompletion ∧
    handleKeyRelease 1100 .top heldToCompletion = heldToCompletion := by decide

/-- C4 (code bug evaluation): pressing the 1000 ms hold perfectly at t=50
(combo 1, one perfect) and releasing at t=550 — completion ratio 0.5, below
0.7 — resolves the hold as a miss (`isHolding` cleared, lane entry deleted)
but records nothing: the miss counter stays 0 and the combo stays 1 instead
of resetting to 0. -/
theorem hold_early_release_no_miss_recorded :
    (handleInput 50 .top true demoHoldSession).score.combo = 1 ∧
    (handleInput 50 .top true demoHoldSession).score.perfect = 1 ∧
    earlyReleaseFinal.score.miss = 0 ∧
    earlyReleaseFinal.score.combo = 1 ∧
    earlyReleaseFinal.score.current = 300 ∧
    (earlyReleaseFinal.notes.map fun n => n.isHolding) = [false] ∧
    earlyReleaseFinal.activeHoldNotes = HoldMap.empty := by decide

end

section
attribute [local semireducible] Rat.mul Rat.add Rat.sub Rat.inv Rat.ofScientific

/-- C5: on a press with no `findHittableNote` target, an explicit miss is
recorded (through `updateScore(0, 'miss')`: miss counter +1, combo reset,
score total unchanged, notes and holds untouched) iff some unresolved note
of the lane lies within the 100-unit outer window; with no nearby note at
all the press leaves the state completely unchanged. -/
theorem press_no_target_behavior (s : EngineState) (t : ℚ) (lane : Lane)
    (hno : findHittableNote s lane = none) :
    (0 < (nearbyNotes s lane).length →
       handleKeyPress t lane s = { s with score := updateScore s.score 0 .miss } ∧
       (updateScore s.score 0 .miss).miss = s.score.miss + 1 ∧
       (updateScore s.score 0 .miss).combo = 0 ∧
       (updateScore s.score 0 .miss).current = s.score.current) ∧
    ((nearbyNotes s lane).length = 0 → handleKeyPress t lane s = s) := by
  constructor
  · intro h
    refine ⟨?_, rfl, rfl, ?_⟩
    · unfold handleKeyPress
      rw [hno]
      dsimp only
      rw [if_pos h]
    · simp [updateScore]
  · intro h
    unfold handleKeyPress
    rw [hno]
    dsimp only
    rw [if_neg (by rw [h]; exact lt_irrefl 0)]

theorem press_no_target_behavior_witness :
    handleKeyPress 0 .top detachedNoteSession =
      { detachedNoteSession with
        score := updateScore detachedNoteSession.score 0 .miss } ∧
    handleKeyPress 0 .top idleLaneSession = idleLaneSession :=
  ⟨((press_no_target_behavior detachedNoteSession 0 .top (by decide)).1
      (by decide)).1,
   (press_no_target_behavior idleLaneSession 0 .top (by decide)).2 (by decide)⟩

/-- C6 (counterexample): converting a chart whose top-lane pattern has
length 8 against subdivision 16 raises no error at all — conversion returns
normally, schedules the 4 notes of the well-formed bottom lane and silently
drops the malformed top lane. -/
theorem malformed_pattern_conversion_no_error :
    (convertToGameFormat testChartCfg malformedCharts "easy").toOption =
      some (processLane testChartCfg "0010001000100010" 0 .bottom) ∧
    processLane testChartCfg "10001000" 0 .top = [] ∧
    (processLane testChartCfg "0010001000100010" 0 .bottom).length = 4 := by decide

/-- C6 (amended): a lane pattern whose length differs from `subdivision` is
skipped whole by `processLane` (a warning is logged, no note of that lane is
scheduled, no exception is thrown); only the separate `validatePattern`
entry point — which conversion never calls — raises an error on such input. -/
theorem pattern_length_mismatch_behavior :
    (∀ (cfg : BMSConfig) (p : String) (mi : ℕ) (lane : Lane),
        p.length ≠ cfg.subdivision → processLane cfg p mi lane = []) ∧
    (∀ (cfg : BMSConfig) (p name : String), p.length ≠ cfg.subdivision →
        ∃ e, validatePattern cfg p name = .error e) := by
  constructor
  · intro cfg p mi lane h
    unfold processLane
    rw [if_pos (Or.inr h)]
  · intro cfg p name h
    unfold validatePattern
    by_cases hp : p.data = []
    · rw [if_pos hp]
      exact ⟨_, rfl⟩
    · rw [if_neg hp, if_pos h]
      exact ⟨_, rfl⟩

theorem pattern_length_mismatch_behavior_witness :
    processLane testChartCfg "10001000" 1 .top = [] ∧
    ∃ e, validatePattern testChartCfg "10001000" "measure 1 top lane" = .error e :=
  ⟨pattern_length_mismatch_behavior.1 testChartCfg "10001000" 1 .top (by decide),
   pattern_length_mismatch_behavior.2 testChartCfg "10001000" "measure 1 top lane"
     (by decide)⟩

/-- C7: converting the single-measure chart with bpm 120, subdivision 16,
4 beats per measure, offset 0 and top lane `"1000100010001000"` yields
exactly 4 top-lane notes at hit times 0, 500, 1000, 1500 ms, each matching
the grid formula
`hitTime = (m*beatsPerMeasure + (i/subdivision)*beatsPerMeasure) * 60000/bpm + offsetMs`. -/
theorem quarter_note_conversion :
    ((convertToGameFormat testChartCfg quarterNoteCharts "easy").toOption.getD []).map
        (fun n => (n.hitTime, n.lane, n.measureIndex, n.subdivisionIndex)) =
      [(0, .top, 0, 0), (500, .top, 0, 4), (1000, .top, 0, 8), (1500, .top, 0, 12)] ∧
    ((convertToGameFormat testChartCfg quarterNoteCharts "easy").toOption.getD []).map
        (fun n => ((n.measureIndex : ℚ) * 4 + ((n.subdivisionIndex : ℚ) / 16) * 4)
            * (60000 / 120) + 0) =
      ((convertToGameFormat testChartCfg quarterNoteCharts "easy").toOption.getD []).map
        (fun n => n.hitTime) := by decide

end

/-- C8: `calculateGrade` computes exactly the spec's function of the closed
judgment counts: `accuracy = (perfect + great*0.8 + good*0.5)/totalJudged`
mapped through the 0.95/0.90/0.80/0.70 thresholds, with grade D when zero
notes were judged. -/
theorem calculateGrade_matches_spec (st : ScoreState) :
    calculateGrade st = gradeOfCountsSpec st.perfect st.great st.good st.miss := by
  unfold calculateGrade gradeOfCountsSpec
  dsimp only
  by_cases h0 : st.perfect + st.great + st.good + st.miss = 0
  · rw [if_pos h0, if_pos h0]
  · have ht : (0 : ℚ) < ((st.perfect + st.great + st.good + st.miss : ℕ) : ℚ) := by
      exact_mod_cast Nat.pos_of_ne_zero h0
    rw [if_neg h0, if_neg h0]
    simp only [ge_iff_le, le_div_iff₀ ht]

section
attribute [local semireducible] Rat.mul Rat.add Rat.sub Rat.inv Rat.ofScientific

/-- C9 (counterexample): from a state satisfying the ActiveHolds invariant in
which the top lane is holding note 0 while a second unresolved hold note 1
of the same lane sits inside the hit window, a press replaces the map entry
with note 1 and leaves note 0 in the Holding state with no entry — the
invariant is violated. -/
theorem activeHolds_invariant_press_violation :
    EngineInv overlappingHoldState ∧
    overlappingHoldState.activeHoldNotes.get .top = some 0 ∧
    (handleKeyPress 1000 .top overlappingHoldState).activeHoldNotes.get .top = some 1 ∧
    ((handleKeyPress 1000 .top overlappingHoldState).notes.map
        fun n => (n.id, n.isHolding)) = [(0, true), (1, true)] ∧
    decide (EngineInv (handleKeyPress 1000 .top overlappingHoldState)) = false := by
  decide

/-- C9 (amended): the ActiveHolds invariant — a lane has a map entry iff its
live hold note is Holding, at most one entry per lane — is preserved by
releases, by the per-tick hold pass, by session stop, and by presses on a
lane with no current entry; a press that starts a hold on a lane that is
already holding (possible only when two unresolved holds of one lane are in
the window at once) replaces the entry and orphans the previous Holding
note. -/
theorem activeHolds_invariant_preservation :
    (∀ (s : EngineState) (t : ℚ) (lane : Lane), EngineInv s →
        s.activeHoldNotes.get lane = none → EngineInv (handleKeyPress t lane s)) ∧
    (∀ (s : EngineState) (t : ℚ) (lane : Lane), EngineInv s →
        EngineInv (handleKeyRelease t lane s)) ∧
    (∀ (s : EngineState) (t : ℚ), EngineInv s → EngineInv (updateHoldNotes t s)) ∧
    (∀ s : EngineState, EngineInv (stopGameCore s)) :=
  ⟨fun _ t lane h hf => holdInv_handleKeyPress t lane h hf,
   fun _ t lane h => holdInv_handleKeyRelease t lane h,
   fun _ t h => holdInv_updateHoldNotes t h,
   holdInv_stopGameCore⟩

theorem activeHolds_invariant_preservation_witness :
    EngineInv (handleKeyPress 50 .top demoHoldSession) ∧
    EngineInv (handleKeyRelease 60 .top (handleKeyPress 50 .top demoHoldSession)) ∧
    EngineInv (updateHoldNotes 160 (handleKeyPress 50 .top demoHoldSession)) ∧
    EngineInv (stopGameCore demoHoldSession) :=
  ⟨activeHolds_invariant_preservation.1 demoHoldSession 50 .top (by decide) (by decide),
   activeHolds_invariant_preservation.2.1 (handleKeyPress 50 .top demoHoldSession)
     60 .top (by decide),
   activeHolds_invariant_preservation.2.2.1 (handleKeyPress 50 .top demoHoldSession)
     160 (by decide),
   activeHolds_invariant_preservation.2.2.2 demoHoldSession⟩

/-- C10: a release on a lane with no `activeHoldNotes` entry (none started,
or the hold already resolved and therefore deleted) leaves the engine state
completely unchanged, both through the `handleInput` dispatcher and through
`handleKeyRelease` itself; a release is never judged on its own. -/
theorem release_without_active_hold_noop (s : EngineState) (t : ℚ) (lane : Lane)
    (h : s.activeHoldNotes.get lane = none) :
    handleInput t lane false s = s ∧ handleKeyRelease t lane s = s := by
  have hrel : handleKeyRelease t lane s = s := by
    unfold handleKeyRelease
    rw [h]
  refine ⟨?_, hrel⟩
  unfold handleInput
  split
  · simpa using hrel
  · rfl

theorem release_without_active_hold_noop_witness :
    handleInput 25 .bottom false demoHoldSession = demoHoldSession ∧
    handleKeyRelease 25 .bottom demoHoldSession = demoHoldSession :=
  release_without_active_hold_noop demoHoldSession 25 .bottom (by decide)

end
